import Mathlib

/-!
Shallow embedding of the Schelling-point oracle runtime module
(`src/runtime/src/schelling.rs`, a 2019-era Substrate `decl_module!`).

Modelling conventions:
* `T::BlockNumber`, `T::AccountId`, `T::TokenBalance`, `u64` values are taken
  from the module's own test configuration (`impl system::Trait for Test`,
  `impl token::Trait for Test`), where all of them are `u64`.  They are
  embedded as `Nat` with explicit `2^64` bounds wherever the source uses
  `checked_*` arithmetic.
* `T::Hash` and `Hashing::hash` are external (`runtime_primitives`), so the
  operations are parametrised by an arbitrary hash function
  `H : Nat → Nat → Nat` on the encoded `(AccountId, u64)` tuple; nothing is
  assumed about `H`.
* The token module (`crate::token`) is not part of the analysed source; the
  spec treats the ledger as an external capability (§6), so `lock`, `unlock`
  and `transfer_from` are recorded as emitted `LedgerOp` effects and assumed
  to succeed.
* `StorageMap Messages` is an association list with at most one binding per
  key (the `Nodup` of its key list is proved preserved below).
* A dispatchable returns an `Outcome`: the storage after execution, the
  ledger calls issued, and `none` or the error it returned.  Storage writes
  performed before a failure persist, matching the non-transactional storage
  of this Substrate generation; a Rust panic (out-of-bounds index) is the
  `panicIndexOutOfBounds` error.
-/

namespace SchellingCoin

/-- `u64::MAX + 1`; all checked arithmetic in the module is on 64-bit types
in the test configuration. -/
def UMAX : Nat := 2 ^ 64

/-- `checked_add` on a 64-bit unsigned integer. -/
def checkedAdd (a b : Nat) : Option Nat :=
  if a + b < UMAX then some (a + b) else none

/-- `checked_mul` on a 64-bit unsigned integer. -/
def checkedMul (a b : Nat) : Option Nat :=
  if a * b < UMAX then some (a * b) else none

/-- `checked_sub` on an unsigned integer: fails on underflow. -/
def checkedSub (a b : Nat) : Option Nat :=
  if b ≤ a then some (a - b) else none

/-- `checked_div` on an unsigned integer: fails only on division by zero. -/
def checkedDiv (a b : Nat) : Option Nat :=
  if b = 0 then none else some (a / b)

/-- The `Message` struct of `schelling.rs`: one commitment per owner.
`status` is the raw `u32` code used by the source (1 = committed,
2 = revealed). -/
structure Message where
  owner : Nat
  status : Nat
  hash : Nat
  value : Nat
  deposit : Nat
deriving DecidableEq, Repr

/-- The module storage (`decl_storage!`): reward/treasury account,
epoch start block, the live per-participant message map, the vector of
revealed (valid) messages, the published consensus `Value`, and the
minimal deposit. -/
structure SchellingState where
  tokenBase : Nat
  epochStart : Nat
  messages : List (Nat × Message)
  validMessages : List Message
  value : Nat
  minDeposit : Nat
deriving DecidableEq, Repr

/-- Ledger (token module) calls issued by the oracle, recorded as effects;
the token module is an external capability. -/
inductive LedgerOp where
  | lock (account amount hash : Nat)
  | unlock (account amount hash : Nat)
  | transferFrom (src dst : Nat) (amount : Nat)
deriving DecidableEq, Repr

/-- The error strings returned by the dispatchables, as an enum.
Each constructor corresponds to one literal in the source:
`duplicateCommitment` = "There is a submission made by the message sender",
`insufficientDeposit` = "The deposit is not high enough",
`overflowErr` = "Overflow" / "overflow",
`deadlinePassedCommit` = "The deadline for hash submission is passed, try next epoch",
`noCommitment` = "Message hash was not submitted",
`tooEarlyReveal` = "Hash submission round did not end yet",
`deadlinePassedReveal` = "The deadline for value submission is passed, please withdraw deposit",
`invalidStatus` = "Message status should be 1",
`hashMismatch` = "Hashes do not match",
`notSettlementTime` = "It is not the time to send out the rewards yet",
`panicIndexOutOfBounds` = the Rust panic on `valid_messages[median_index]`
when the index is out of range,
`badOrigin` = failure of `ensure_root` / `ensure_signed` (external system
module). -/
inductive SchellingError where
  | duplicateCommitment
  | insufficientDeposit
  | overflowErr
  | deadlinePassedCommit
  | noCommitment
  | tooEarlyReveal
  | deadlinePassedReveal
  | invalidStatus
  | hashMismatch
  | notSettlementTime
  | panicIndexOutOfBounds
  | badOrigin
deriving DecidableEq, Repr

/-- Result of executing one dispatchable: storage after execution, ledger
calls issued, and the returned error (if any). -/
structure Outcome where
  state : SchellingState
  effects : List LedgerOp
  error : Option SchellingError
deriving DecidableEq, Repr

/-- Transaction origin: `Root` or a signed account. -/
inductive Origin where
  | root
  | signed (who : Nat)
deriving DecidableEq, Repr

/-- `StorageMap` lookup: the binding for `key`, if any. -/
def mapLookup (m : List (Nat × Message)) (key : Nat) : Option Message :=
  match m with
  | [] => none
  | (k, v) :: rest => if k = key then some v else mapLookup rest key

/-- `StorageMap::remove`. -/
def mapRemove : List (Nat × Message) → Nat → List (Nat × Message)
  | [], _ => []
  | (k, v) :: rest, key =>
    if k = key then mapRemove rest key else (k, v) :: mapRemove rest key

/-- `StorageMap::insert` (overwrites any existing binding). -/
def mapInsert (m : List (Nat × Message)) (key : Nat) (v : Message) :
    List (Nat × Message) :=
  (key, v) :: mapRemove m key

/-- The keys of the live message map. -/
def mapKeys (m : List (Nat × Message)) : List Nat := m.map Prod.fst

/-- Insert a message into a list already sorted by `value`, after every
element with a strictly smaller value and before equal ones that were
later in the original order. -/
def insertByValue (m : Message) : List Message → List Message
  | [] => [m]
  | x :: xs => if x.value < m.value then x :: insertByValue m xs else m :: x :: xs

/-- Stable sort of the valid messages by submitted `value` ascending,
modelling Rust's stable `sort_by_key(|k| k.value)`. -/
def sortByValue : List Message → List Message
  | [] => []
  | m :: rest => insertByValue m (sortByValue rest)

/-- `fn new_epoch(origin)`: root-only; stores the current block number as
`EpochStart` and emits `NewEpochStarted`.  It writes nothing else. -/
def new_epoch (origin : Origin) (s : SchellingState) (blockNumber : Nat) :
    Outcome :=
  match origin with
  | .signed _ => ⟨s, [], some .badOrigin⟩
  | .root => ⟨{ s with epochStart := blockNumber }, [], none⟩

/-- `fn submit_hash(origin, hash, deposit)`: checks no existing submission,
minimal deposit, and the 50-block commit deadline; locks the deposit and
inserts `Message { owner, status: 1, hash, value: 0, deposit }`. -/
def submit_hash (origin : Origin) (s : SchellingState)
    (hash deposit blockNumber : Nat) : Outcome :=
  match origin with
  | .root => ⟨s, [], some .badOrigin⟩
  | .signed sender =>
    if (mapLookup s.messages sender).isSome then
      ⟨s, [], some .duplicateCommitment⟩
    else if ¬ (s.minDeposit ≤ deposit) then
      ⟨s, [], some .insufficientDeposit⟩
    else
      match checkedAdd s.epochStart 50 with
      | none => ⟨s, [], some .overflowErr⟩
      | some deadline =>
        if ¬ (blockNumber < deadline) then
          ⟨s, [], some .deadlinePassedCommit⟩
        else
          let message : Message := ⟨sender, 1, hash, 0, deposit⟩
          ⟨{ s with messages := mapInsert s.messages sender message },
           [LedgerOp.lock sender deposit hash], none⟩

/-- `fn submit_value(origin, value)`: checks an existing submission, the
reveal window `(epoch_start+50, epoch_start+100)`, status 1, and that
`Hashing::hash((sender, message.value))` equals the stored hash — note the
source hashes the STORED `message.value` (zero after `submit_hash`), not
the supplied `value`.  On success the message gets the supplied value and
status 2, is appended to `ValidMessages`, and is removed from the map. -/
def submit_value (H : Nat → Nat → Nat) (origin : Origin) (s : SchellingState)
    (value blockNumber : Nat) : Outcome :=
  match origin with
  | .root => ⟨s, [], some .badOrigin⟩
  | .signed sender =>
    match mapLookup s.messages sender with
    | none => ⟨s, [], some .noCommitment⟩
    | some message =>
      match checkedAdd s.epochStart 50 with
      | none => ⟨s, [], some .overflowErr⟩
      | some round_one_end =>
        match checkedAdd s.epochStart 100 with
        | none => ⟨s, [], some .overflowErr⟩
        | some deadline =>
          if ¬ (round_one_end < blockNumber) then
            ⟨s, [], some .tooEarlyReveal⟩
          else if ¬ (blockNumber < deadline) then
            ⟨s, [], some .deadlinePassedReveal⟩
          else if ¬ (message.status = 1) then
            ⟨s, [], some .invalidStatus⟩
          else if ¬ (H sender message.value = message.hash) then
            ⟨s, [], some .hashMismatch⟩
          else
            ⟨{ s with
                validMessages :=
                  s.validMessages ++ [{ message with value := value, status := 2 }],
                messages := mapRemove s.messages sender },
             [], none⟩

/-- `fn withdraw(origin)`: checks an existing submission with status 1,
unlocks the full deposit back to the owner and removes the message. -/
def withdraw (origin : Origin) (s : SchellingState) : Outcome :=
  match origin with
  | .root => ⟨s, [], some .badOrigin⟩
  | .signed sender =>
    match mapLookup s.messages sender with
    | none => ⟨s, [], some .noCommitment⟩
    | some message =>
      if ¬ (message.status = 1) then
        ⟨s, [], some .invalidStatus⟩
      else
        ⟨{ s with messages := mapRemove s.messages sender },
         [LedgerOp.unlock message.owner message.deposit message.hash], none⟩

/-- The per-outlier refund computation of `send_rewards`:
`refund = deposit * 99 / 100` and `penalty = deposit - refund`, all with
checked arithmetic. -/
def outlierRefund (deposit : Nat) : Option (Nat × Nat) :=
  match checkedMul deposit 99 with
  | none => none
  | some step =>
    match checkedDiv step 100 with
    | none => none
    | some refund =>
      match checkedSub deposit refund with
      | none => none
      | some penalty => some (refund, penalty)

/-- The reward loop of `send_rewards` over the sorted valid messages, with
`i` the running index: strictly inside `(lower_border, upper_border)` the
deposit is unlocked in full and 100 units are transferred from the token
base; otherwise 99% is refunded to the owner and the penalty is unlocked to
the token base.  Returns the ledger calls issued (also those issued before
a mid-loop failure) and the error if one occurred. -/
def rewardLoop (tokenBase lower upper : Nat) (i : Nat) :
    List Message → List LedgerOp × Option SchellingError
  | [] => ([], none)
  | message :: rest =>
    if lower < i ∧ i < upper then
      let eff := [LedgerOp.unlock message.owner message.deposit message.hash,
                  LedgerOp.transferFrom tokenBase message.owner 100]
      match checkedAdd i 1 with
      | none => (eff, some .overflowErr)
      | some i2 =>
        let r := rewardLoop tokenBase lower upper i2 rest
        (eff ++ r.1, r.2)
    else
      match outlierRefund message.deposit with
      | none => ([], some .overflowErr)
      | some (refund, penalty) =>
        let eff := [LedgerOp.unlock message.owner refund message.hash,
                    LedgerOp.unlock tokenBase penalty message.hash]
        match checkedAdd i 1 with
        | none => (eff, some .overflowErr)
        | some i2 =>
          let r := rewardLoop tokenBase lower upper i2 rest
          (eff ++ r.1, r.2)

/-- `fn send_rewards(origin)`: root-only settlement at exactly
`epoch_start + 101`.  Sorts `ValidMessages` by value, computes the 25th/75th
percentile index borders and the median index, publishes
`valid_messages[median_index].value` as `Value` (a Rust panic when the
vector is empty), runs the reward loop, clears `ValidMessages`, and calls
`new_epoch` with a root origin. -/
def send_rewards (origin : Origin) (s : SchellingState) (blockNumber : Nat) :
    Outcome :=
  match origin with
  | .signed _ => ⟨s, [], some .badOrigin⟩
  | .root =>
    match checkedAdd s.epochStart 101 with
    | none => ⟨s, [], some .overflowErr⟩
    | some epoch_end =>
      if ¬ (blockNumber = epoch_end) then
        ⟨s, [], some .notSettlementTime⟩
      else
        let valid_messages := sortByValue s.validMessages
        let messages_length := valid_messages.length
        match checkedDiv messages_length 4 with
        | none => ⟨s, [], some .overflowErr⟩
        | some lower_border =>
          match checkedMul messages_length 3 with
          | none => ⟨s, [], some .overflowErr⟩
          | some step =>
            match checkedDiv step 4 with
            | none => ⟨s, [], some .overflowErr⟩
            | some upper_border =>
              match checkedDiv messages_length 2 with
              | none => ⟨s, [], some .overflowErr⟩
              | some median_index =>
                match valid_messages.get? median_index with
                | none => ⟨s, [], some .panicIndexOutOfBounds⟩
                | some median =>
                  let s1 := { s with value := median.value }
                  let r := rewardLoop s.tokenBase lower_border upper_border 0
                    valid_messages
                  match r.2 with
                  | some e => ⟨s1, r.1, some e⟩
                  | none =>
                    let s2 := { s1 with validMessages := [] }
                    let out := new_epoch .root s2 blockNumber
                    ⟨out.state, r.1 ++ out.effects, out.error⟩

/-! ### Helper lemmas about the message map -/

theorem mapLookup_mapRemove_self (m : List (Nat × Message)) (k : Nat) :
    mapLookup (mapRemove m k) k = none := by
  induction m with
  | nil => rfl
  | cons p rest ih =>
    obtain ⟨k', v⟩ := p
    by_cases h : k' = k
    · simpa [mapRemove, h] using ih
    · simp [mapRemove, mapLookup, h, ih]

theorem mapKeys_mapRemove (m : List (Nat × Message)) (k : Nat) :
    mapKeys (mapRemove m k) = (mapKeys m).filter (fun a => !decide (a = k)) := by
  induction m with
  | nil => rfl
  | cons p rest ih =>
    obtain ⟨k', v⟩ := p
    by_cases h : k' = k <;> simpa [mapRemove, mapKeys, h] using ih

theorem not_mem_mapKeys_mapRemove_self (m : List (Nat × Message)) (k : Nat) :
    k ∉ mapKeys (mapRemove m k) := by
  simp [mapKeys_mapRemove, List.mem_filter]

theorem nodup_mapKeys_mapRemove {m : List (Nat × Message)} (k : Nat)
    (h : (mapKeys m).Nodup) : (mapKeys (mapRemove m k)).Nodup := by
  rw [mapKeys_mapRemove]
  exact h.filter _

theorem nodup_mapKeys_mapInsert {m : List (Nat × Message)} (k : Nat) (v : Message)
    (h : (mapKeys m).Nodup) : (mapKeys (mapInsert m k v)).Nodup := by
  simp only [mapInsert, mapKeys, List.map_cons, List.nodup_cons]
  exact ⟨not_mem_mapKeys_mapRemove_self m k, nodup_mapKeys_mapRemove k h⟩

/-! ### Per-operation frame lemmas -/

theorem new_epoch_nodup (o : Origin) (s : SchellingState) (b : Nat)
    (hn : (mapKeys s.messages).Nodup) :
    (mapKeys (new_epoch o s b).state.messages).Nodup := by
  cases o <;> exact hn

theorem submit_hash_nodup (o : Origin) (s : SchellingState) (h d b : Nat)
    (hn : (mapKeys s.messages).Nodup) :
    (mapKeys (submit_hash o s h d b).state.messages).Nodup := by
  cases o with
  | root => exact hn
  | signed sender =>
    simp only [submit_hash]
    split
    · exact hn
    · split
      · exact hn
      · split
        · exact hn
        · split
          · exact hn
          · exact nodup_mapKeys_mapInsert sender _ hn

theorem submit_value_nodup (H : Nat → Nat → Nat) (o : Origin)
    (s : SchellingState) (v b : Nat) (hn : (mapKeys s.messages).Nodup) :
    (mapKeys (submit_value H o s v b).state.messages).Nodup := by
  cases o with
  | root => exact hn
  | signed sender =>
    simp only [submit_value]
    split
    · exact hn
    · split
      · exact hn
      · split
        · exact hn
        · split
          · exact hn
          · split
            · exact hn
            · split
              · exact hn
              · split
                · exact hn
                · exact nodup_mapKeys_mapRemove sender hn

theorem withdraw_nodup (o : Origin) (s : SchellingState)
    (hn : (mapKeys s.messages).Nodup) :
    (mapKeys (withdraw o s).state.messages).Nodup := by
  cases o with
  | root => exact hn
  | signed sender =>
    simp only [withdraw]
    split
    · exact hn
    · split
      · exact hn
      · exact nodup_mapKeys_mapRemove sender hn

theorem send_rewards_messages (o : Origin) (s : SchellingState) (b : Nat) :
    (send_rewards o s b).state.messages = s.messages := by
  cases o with
  | signed w => rfl
  | root =>
    simp only [send_rewards]
    repeat' split
    all_goals rfl

theorem new_epoch_value_frame (o : Origin) (s : SchellingState) (b : Nat) :
    (new_epoch o s b).state.value = s.value := by
  cases o <;> rfl

theorem submit_hash_value_frame (o : Origin) (s : SchellingState) (h d b : Nat) :
    (submit_hash o s h d b).state.value = s.value := by
  cases o with
  | root => rfl
  | signed sender =>
    simp only [submit_hash]
    repeat' split
    all_goals rfl

theorem submit_value_value_frame (H : Nat → Nat → Nat) (o : Origin)
    (s : SchellingState) (v b : Nat) :
    (submit_value H o s v b).state.value = s.value := by
  cases o with
  | root => rfl
  | signed sender =>
    simp only [submit_value]
    repeat' split
    all_goals rfl

theorem withdraw_value_frame (o : Origin) (s : SchellingState) :
    (withdraw o s).state.value = s.value := by
  cases o with
  | root => rfl
  | signed sender =>
    simp only [withdraw]
    repeat' split
    all_goals rfl

theorem withdraw_no_commitment (s : SchellingState) (sender : Nat)
    (h : mapLookup s.messages sender = none) :
    withdraw (.signed sender) s = ⟨s, [], some .noCommitment⟩ := by
  simp [withdraw, h]

/-! ### Concrete scenarios -/

/-- A concrete injective instance of the external hash parameter, used in
the closed scenarios: the numeric encoding of the `(owner, value)` tuple. -/
def testHash (o v : Nat) : Nat := o * UMAX + v

/-- A state holding one live commitment by account 1 whose stored hash
binds the value 7, i.e. equals `testHash 1 7`. -/
def stateBound7 : SchellingState :=
  ⟨9, 0, [(1, ⟨1, 1, testHash 1 7, 0, 1000⟩)], [], 0, 10⟩

/-- A state holding one live commitment by account 1 whose stored hash
binds the value 0, i.e. equals `testHash 1 0` (the only hash the reveal
check of the source can ever accept, since `Message.value` is zero after
`submit_hash`). -/
def stateBound0 : SchellingState :=
  ⟨9, 0, [(1, ⟨1, 1, testHash 1 0, 0, 1000⟩)], [], 0, 10⟩

/-- A state with no submissions and an empty `ValidMessages` vector. -/
def stateEmpty : SchellingState := ⟨9, 0, [], [], 0, 10⟩

/-- A revealed message for the settlement scenarios. -/
def revealedMsg (o v d : Nat) : Message := ⟨o, 2, testHash o 0, v, d⟩

/-- The state of claim C5: revealed values `[10, 20, 30, 40]` (stored out
of order to exercise the sort) with deposits `1000/2000/3000/4000`. -/
def stateFour : SchellingState :=
  ⟨9, 0, [],
   [revealedMsg 3 30 3000, revealedMsg 1 10 1000,
    revealedMsg 4 40 4000, revealedMsg 2 20 2000], 0, 10⟩

/-! ### Claim theorems -/

/-- C1, code bug.  The claim says `reveal_value(owner, value)` succeeds iff
the stored `commitment_hash` equals `hash(owner, value)` for the value
supplied at reveal time.  The source instead recomputes the hash of the
STORED `message.value` (always 0 after `submit_hash`), so: a commitment
whose hash binds the value 7 cannot be revealed even with the correct
value 7 (it fails with `HashMismatch` and stays live), while a commitment
whose hash binds 0 can be revealed with any value, here 42, although
`hash(owner, 42)` differs from the stored hash. -/
theorem c1_reveal_binding_broken :
    (testHash 1 7 = (⟨1, 1, testHash 1 7, 0, 1000⟩ : Message).hash ∧
      (submit_value testHash (.signed 1) stateBound7 7 60).error =
        some .hashMismatch ∧
      (submit_value testHash (.signed 1) stateBound7 7 60).state =
        stateBound7) ∧
    (testHash 1 42 ≠ (⟨1, 1, testHash 1 0, 0, 1000⟩ : Message).hash ∧
      (submit_value testHash (.signed 1) stateBound0 42 60).error = none) := by
  decide

/-- C2, code bug.  With an empty RevealedSet, `send_rewards` at the
settlement block (`epoch_start + 101`) indexes `valid_messages[0]` of an
empty vector — a Rust panic — instead of skipping reward computation; no
state is written, and in particular the epoch is NOT advanced
(`epoch_start` stays 0 rather than becoming 101). -/
theorem c2_empty_settlement_panics :
    send_rewards .root stateEmpty 101 =
      ⟨stateEmpty, [], some .panicIndexOutOfBounds⟩ ∧
    (send_rewards .root stateEmpty 101).state.epochStart = 0 := by
  decide

/-- C3, counterexample.  A successful root `new_epoch` leaves a residual
live commitment and a residual `ValidMessages` entry in place: it does not
clear either map, contradicting the claim that afterwards no participant
has a live commitment and the RevealedSet is empty. -/
theorem c3_counterexample :
    (new_epoch .root
        ⟨9, 0, [(1, ⟨1, 1, testHash 1 0, 0, 1000⟩)],
         [revealedMsg 2 42 500], 7, 10⟩ 77).error = none ∧
    (new_epoch .root
        ⟨9, 0, [(1, ⟨1, 1, testHash 1 0, 0, 1000⟩)],
         [revealedMsg 2 42 500], 7, 10⟩ 77).state.messages ≠ [] ∧
    (new_epoch .root
        ⟨9, 0, [(1, ⟨1, 1, testHash 1 0, 0, 1000⟩)],
         [revealedMsg 2 42 500], 7, 10⟩ 77).state.validMessages ≠ [] := by
  decide

/-- C3, amended.  A successful authorized `new_epoch(current_time)` sets
`epoch_start` to the current block number and changes nothing else: the
live commitment map, the RevealedSet (`ValidMessages`), the published
value, the minimal deposit and the treasury account are all left exactly
as they were, and no ledger call is issued. -/
theorem c3_new_epoch_sets_only_epoch_start (s : SchellingState) (b : Nat) :
    new_epoch .root s b = ⟨{ s with epochStart := b }, [], none⟩ := rfl

/-- C5.  Settlement over revealed values `[10, 20, 30, 40]` (n = 4,
`lower = 1`, `upper = 3`, `median_index = 2`): the consensus `Value`
becomes 30; only the participant at sorted index 2 (owner 3) is strictly
inside the band and gets a full deposit unlock of 3000 plus the fixed
100-unit transfer from the treasury (account 9); the participants at
sorted indices 0, 1 and 3 are outliers and are refunded 99% of their
deposits (990, 1980, 3960), with the 1% penalties (10, 20, 40) unlocked to
the treasury.  Settlement then clears `ValidMessages` and advances the
epoch to block 101. -/
theorem c5_four_values_settlement :
    send_rewards .root stateFour 101 =
      ⟨⟨9, 101, [], [], 30, 10⟩,
       [.unlock 1 990 (testHash 1 0), .unlock 9 10 (testHash 1 0),
        .unlock 2 1980 (testHash 2 0), .unlock 9 20 (testHash 2 0),
        .unlock 3 3000 (testHash 3 0), .transferFrom 9 3 100,
        .unlock 4 3960 (testHash 4 0), .unlock 9 40 (testHash 4 0)],
       none⟩ := by
  decide

/-- C7.  The outlier arithmetic of `send_rewards` loses nothing to
rounding: whenever the checked computation of
`refund = deposit * 99 / 100` and `penalty = deposit - refund` succeeds,
`refund + penalty = deposit` exactly. -/
theorem c7_refund_penalty_roundtrip (d refund penalty : Nat)
    (h : outlierRefund d = some (refund, penalty)) :
    refund + penalty = d := by
  have hle : d * 99 / 100 ≤ d := by omega
  by_cases h99 : d * 99 < UMAX
  · simp [outlierRefund, checkedMul, checkedDiv, checkedSub, h99, hle] at h
    omega
  · simp [outlierRefund, checkedMul, h99] at h

/-- C7, witness: a deposit of 1000 splits into refund 990 and penalty 10,
which sum back to 1000. -/
theorem c7_witness : outlierRefund 1000 = some (990, 10) ∧ 990 + 10 = 1000 :=
  ⟨by decide, c7_refund_penalty_roundtrip 1000 990 10 (by decide)⟩

/-- C6.  Settlement over a single revealed value `[50]` (n = 1, so
`lower = 0`, `upper = 0`): no sorted index is strictly between the
borders, so the sole reporter takes the outlier branch — they are
refunded `deposit * 99 / 100` and the remaining 1% is unlocked to the
treasury — even though they are the only participant.  (`Value` still
becomes 50 and the epoch advances.) -/
theorem c6_single_reporter_outlier (base e : Nat) (mp : List (Nat × Message))
    (v0 mind owner st h d : Nat)
    (he : e + 101 < UMAX) (hd : d * 99 < UMAX) :
    send_rewards .root ⟨base, e, mp, [⟨owner, st, h, 50, d⟩], v0, mind⟩
        (e + 101) =
      ⟨⟨base, e + 101, mp, [], 50, mind⟩,
       [.unlock owner (d * 99 / 100) h, .unlock base (d - d * 99 / 100) h],
       none⟩ := by
  have hle : d * 99 / 100 ≤ d := by omega
  have he2 : e + 101 < 18446744073709551616 := he
  have hd2 : d * 99 < 18446744073709551616 := hd
  simp [send_rewards, checkedAdd, checkedMul, checkedDiv, checkedSub,
    sortByValue, insertByValue, rewardLoop, outlierRefund, new_epoch,
    he2, hd2, hle, UMAX]

/-- C6, witness: the sole reporter of value 50 with deposit 1000 is
refunded 990 and forfeits 10 to the treasury. -/
theorem c6_witness :
    send_rewards .root
        ⟨9, 0, [], [⟨1, 2, testHash 1 0, 50, 1000⟩], 0, 10⟩ (0 + 101) =
      ⟨⟨9, 0 + 101, [], [], 50, 10⟩,
       [.unlock 1 (1000 * 99 / 100) (testHash 1 0),
        .unlock 9 (1000 - 1000 * 99 / 100) (testHash 1 0)], none⟩ :=
  c6_single_reporter_outlier 9 0 [] 0 10 1 2 (testHash 1 0) 1000
    (by decide) (by decide)

/-- C8.  The reveal window is exclusive at both ends: with a live
commitment in place, `submit_value` at exactly `epoch_start + 50` (the
commit deadline) fails with `TooEarly`, at exactly `epoch_start + 100`
(the reveal deadline) fails with `DeadlinePassed` (both leaving the state
untouched), and any succeeding reveal happened at a block strictly
between the two deadlines. -/
theorem c8_reveal_window_exclusive (H : Nat → Nat → Nat) (s : SchellingState)
    (sender : Nat) (m : Message)
    (hm : mapLookup s.messages sender = some m)
    (hov : s.epochStart + 100 < UMAX) :
    (∀ v, submit_value H (.signed sender) s v (s.epochStart + 50) =
        ⟨s, [], some .tooEarlyReveal⟩) ∧
    (∀ v, submit_value H (.signed sender) s v (s.epochStart + 100) =
        ⟨s, [], some .deadlinePassedReveal⟩) ∧
    (∀ v t, (submit_value H (.signed sender) s v t).error = none →
        s.epochStart + 50 < t ∧ t < s.epochStart + 100) := by
  have h50 : s.epochStart + 50 < UMAX := by omega
  refine ⟨fun v => ?_, fun v => ?_, fun v t herr => ?_⟩
  · simp [submit_value, hm, checkedAdd, h50, hov]
  · simp [submit_value, hm, checkedAdd, h50, hov]
  · simp only [submit_value, hm, checkedAdd, if_pos h50, if_pos hov] at herr
    split at herr
    · simp at herr
    · split at herr
      · simp at herr
      · split at herr
        · simp at herr
        · split at herr
          · simp at herr
          · omega

/-- C8, witness: with `epoch_start = 0`, a reveal at block 50 fails with
`TooEarly` and a reveal at block 100 fails with `DeadlinePassed`. -/
theorem c8_witness :
    submit_value testHash (.signed 1) stateBound0 5 (stateBound0.epochStart + 50) =
      ⟨stateBound0, [], some .tooEarlyReveal⟩ ∧
    submit_value testHash (.signed 1) stateBound0 5 (stateBound0.epochStart + 100) =
      ⟨stateBound0, [], some .deadlinePassedReveal⟩ := by
  have h := c8_reveal_window_exclusive testHash stateBound0 1
    ⟨1, 1, testHash 1 0, 0, 1000⟩ (by decide) (by decide)
  exact ⟨h.1 5, h.2.1 5⟩

theorem submit_value_ok_messages (H : Nat → Nat → Nat) (sender v b : Nat)
    (s : SchellingState)
    (hok : (submit_value H (.signed sender) s v b).error = none) :
    (submit_value H (.signed sender) s v b).state.messages =
      mapRemove s.messages sender := by
  rcases hL : mapLookup s.messages sender with _ | m
  · simp [submit_value, hL] at hok
  rcases h50 : checkedAdd s.epochStart 50 with _ | r1
  · simp [submit_value, hL, h50] at hok
  rcases h100 : checkedAdd s.epochStart 100 with _ | dl
  · simp [submit_value, hL, h50, h100] at hok
  by_cases c1 : r1 < b
  case neg => simp [submit_value, hL, h50, h100, c1] at hok
  by_cases c2 : b < dl
  case neg => simp [submit_value, hL, h50, h100, c1, c2] at hok
  by_cases c3 : m.status = 1
  case neg => simp [submit_value, hL, h50, h100, c1, c2, c3] at hok
  by_cases c4 : H sender m.value = m.hash
  case neg => simp [submit_value, hL, h50, h100, c1, c2, c3, c4] at hok
  simp [submit_value, hL, h50, h100, c1, c2, c3, c4]

/-- C4, counterexample.  Account 1 commits a hash binding 0 and (because
of the broken binding check, see C1) successfully reveals 42 at block 60.
The reveal removed the live map entry, so the subsequent `withdraw` fails
with `NoCommitment` ("Message hash was not submitted"), NOT with
`InvalidStatus` ("Message status should be 1") as the claim states. -/
theorem c4_counterexample :
    (submit_value testHash (.signed 1) stateBound0 42 60).error = none ∧
    (withdraw (.signed 1)
        (submit_value testHash (.signed 1) stateBound0 42 60).state).error =
      some .noCommitment ∧
    (withdraw (.signed 1)
        (submit_value testHash (.signed 1) stateBound0 42 60).state).error ≠
      some .invalidStatus := by
  decide

/-- C4, amended.  After any successful `reveal_value`, a `withdraw` by the
same owner fails with `NoCommitment` (the reveal removed the entry from
the live commitment map), and the failed withdraw leaves all state
unchanged and issues no ledger call. -/
theorem c4_withdraw_after_reveal_no_commitment (H : Nat → Nat → Nat)
    (sender v b : Nat) (s : SchellingState)
    (hok : (submit_value H (.signed sender) s v b).error = none) :
    withdraw (.signed sender) (submit_value H (.signed sender) s v b).state =
      ⟨(submit_value H (.signed sender) s v b).state, [],
       some .noCommitment⟩ :=
  withdraw_no_commitment _ sender (by
    rw [submit_value_ok_messages H sender v b s hok]
    exact mapLookup_mapRemove_self s.messages sender)

/-- C4, witness: the amended statement at the concrete reveal scenario of
the counterexample. -/
theorem c4_witness :
    withdraw (.signed 1)
        (submit_value testHash (.signed 1) stateBound0 42 60).state =
      ⟨(submit_value testHash (.signed 1) stateBound0 42 60).state, [],
       some .noCommitment⟩ :=
  c4_withdraw_after_reveal_no_commitment testHash 1 42 60 stateBound0
    (by decide)

/-- C9.  At most one live commitment per participant: a second
`submit_hash` by an owner who already has a live entry fails with
`DuplicateCommitment` and changes nothing (inserts nothing, locks
nothing); and the at-most-one invariant — no duplicate keys in the live
commitment map — is preserved by every operation of the module. -/
theorem c9_at_most_one_live_commitment :
    (∀ (s : SchellingState) (sender h d b : Nat) (m : Message),
        mapLookup s.messages sender = some m →
        submit_hash (.signed sender) s h d b =
          ⟨s, [], some .duplicateCommitment⟩) ∧
    (∀ (o : Origin) (s : SchellingState) (b : Nat),
        (mapKeys s.messages).Nodup →
        (mapKeys (new_epoch o s b).state.messages).Nodup) ∧
    (∀ (o : Origin) (s : SchellingState) (h d b : Nat),
        (mapKeys s.messages).Nodup →
        (mapKeys (submit_hash o s h d b).state.messages).Nodup) ∧
    (∀ (H : Nat → Nat → Nat) (o : Origin) (s : SchellingState) (v b : Nat),
        (mapKeys s.messages).Nodup →
        (mapKeys (submit_value H o s v b).state.messages).Nodup) ∧
    (∀ (o : Origin) (s : SchellingState),
        (mapKeys s.messages).Nodup →
        (mapKeys (withdraw o s).state.messages).Nodup) ∧
    (∀ (o : Origin) (s : SchellingState) (b : Nat),
        (mapKeys s.messages).Nodup →
        (mapKeys (send_rewards o s b).state.messages).Nodup) := by
  refine ⟨?_, new_epoch_nodup, submit_hash_nodup, submit_value_nodup,
    withdraw_nodup, fun o s b hn => ?_⟩
  · intro s sender h d b m hm
    simp [submit_hash, hm]
  · rw [send_rewards_messages]
    exact hn

/-- C9, witness: a second commitment by account 1 (which already holds
one in `stateBound7`) is rejected as a duplicate with no state change,
and a withdraw preserves the duplicate-free key invariant. -/
theorem c9_witness :
    submit_hash (.signed 1) stateBound7 123 1000 10 =
      ⟨stateBound7, [], some .duplicateCommitment⟩ ∧
    (mapKeys (withdraw (.signed 1) stateBound7).state.messages).Nodup :=
  ⟨c9_at_most_one_live_commitment.1 stateBound7 1 123 1000 10
      ⟨1, 1, testHash 1 7, 0, 1000⟩ (by decide),
   c9_at_most_one_live_commitment.2.2.2.2.1 (.signed 1) stateBound7
      (by decide)⟩

/-- C10.  The published consensus `Value` is written only by settlement:
`new_epoch`, `submit_hash`, `submit_value` and `withdraw` leave the stored
`Value` unchanged on every input — whether they succeed or fail — so the
previous epoch output stays readable until the next successful
`send_rewards` overwrites it. -/
theorem c10_value_written_only_by_settlement :
    (∀ (o : Origin) (s : SchellingState) (b : Nat),
        (new_epoch o s b).state.value = s.value) ∧
    (∀ (o : Origin) (s : SchellingState) (h d b : Nat),
        (submit_hash o s h d b).state.value = s.value) ∧
    (∀ (H : Nat → Nat → Nat) (o : Origin) (s : SchellingState) (v b : Nat),
        (submit_value H o s v b).state.value = s.value) ∧
    (∀ (o : Origin) (s : SchellingState),
        (withdraw o s).state.value = s.value) :=
  ⟨new_epoch_value_frame, submit_hash_value_frame,
   submit_value_value_frame, withdraw_value_frame⟩

end SchellingCoin
